import Mathlib

/-!
Verification of the demisto-sdk content-graph and XSIAM-report export core.

The development shallowly embeds:
* `XSIAMReport.dump` and its helpers
  (`demisto_sdk/commands/common/content/objects/pack_objects/xsiam_report/xsiam_report.py`);
* `ContentItem` graph queries, normalization and export
  (`demisto_sdk/commands/content_graph/objects/content_item.py`).

Python strings are embedded as Lean `String` (with the character-list based
helpers below standing for the `str` methods actually used by the source:
`str.replace(pat, '')`, `str.startswith`, `pathlib.Path.name/.parent/.stem`).
The local file system is embedded as an association list from path strings to
file contents.
-/

/-! ### Semantic versions -/

/-- Release triple of `packaging.version.Version`, which the source only ever
builds from dotted numeric strings such as `"6.10.0"` or `"99.99.99"`. -/
structure SemVer where
  major : Nat
  minor : Nat
  micro : Nat
deriving DecidableEq, Repr

/-- Strict lexicographic version order, embedding `Version.__lt__` on release
triples. -/
def SemVer.lt (a b : SemVer) : Bool :=
  if a.major ≠ b.major then decide (a.major < b.major)
  else if a.minor ≠ b.minor then decide (a.minor < b.minor)
  else decide (a.micro < b.micro)

/-- Non-strict version order, embedding `Version.__ge__`/`__le__` on release
triples. -/
def SemVer.le (a b : SemVer) : Bool :=
  SemVer.lt a b || a == b

/-- The fixed cutover version `'6.10.0'` of `XSIAMReport.dump`. -/
def xsiamCutover : SemVer := ⟨6, 10, 0⟩

/-- The default lower bound `'0.0.0'` used by `self.get('fromVersion', '0.0.0')`. -/
def defaultFromVersion : SemVer := ⟨0, 0, 0⟩

/-- The default upper bound `'99.99.99'` used by `self.get('toVersion', '99.99.99')`. -/
def defaultToVersion : SemVer := ⟨99, 99, 99⟩

/-! ### Python string primitives (over `List Char`) -/

/-- Worker for `stripAll`.  The counter counts characters of a matched pattern
occurrence that still have to be discarded; scanning restarts after the
occurrence, exactly like Python's left-to-right non-overlapping `str.replace`. -/
def stripAllAux (pat : List Char) : List Char → Nat → List Char
  | [], _ => []
  | _ :: rest, Nat.succ skip => stripAllAux pat rest skip
  | c :: rest, 0 =>
    if pat.isPrefixOf (c :: rest) then stripAllAux pat rest (pat.length - 1)
    else c :: stripAllAux pat rest 0

/-- All occurrences of `pat` removed, left to right, non-overlapping:
the character-level semantics of Python `s.replace(pat, '')`. -/
def stripAll (pat l : List Char) : List Char :=
  if pat.isEmpty then l else stripAllAux pat l 0

/-- Embedding of Python `s.replace(pat, '')` on strings. -/
def pyReplaceDel (s pat : String) : String :=
  ⟨stripAll pat.data s.data⟩

/-- Whether `pat` occurs as a contiguous sublist: the character-level semantics
of Python `pat in s`. -/
def hasMatch (pat : List Char) : List Char → Bool
  | [] => pat.isEmpty
  | c :: rest => pat.isPrefixOf (c :: rest) || hasMatch pat rest

/-- Embedding of Python `s.startswith(pre)`. -/
def pyStartsWith (s pre : String) : Bool :=
  pre.data.isPrefixOf s.data

/-- Characters after the last `'/'`: the semantics of `pathlib.Path.name` for
the slash-joined path strings produced by the source. -/
def lastComponent (l : List Char) : List Char :=
  ((l.reverse.takeWhile (fun c => c ≠ '/')).reverse)

/-- Characters before the last `'/'`: the semantics of `pathlib.Path.parent`
for the slash-joined path strings produced by the source. -/
def dirComponent (l : List Char) : List Char :=
  ((l.reverse.dropWhile (fun c => c ≠ '/')).tail).reverse

/-- `pathlib.Path(p).name` on path strings. -/
def pathNameStr (p : String) : String :=
  ⟨lastComponent p.data⟩

/-- `pathlib.Path(p).parent` on path strings (as a string). -/
def pathParentStr (p : String) : String :=
  ⟨dirComponent p.data⟩

/-- `pathlib.Path(name).stem`: the file name with its last dot-suffix removed
(`"foo.json"` ↦ `"foo"`); names without a dot are returned unchanged. -/
def stemOf (name : String) : String :=
  if '.' ∈ name.data then ⟨((name.data.reverse.dropWhile (fun c => c ≠ '.')).tail).reverse⟩
  else name

/-! ### File-system state -/

/-- A file system as an association list from path strings to file contents. -/
abbrev FS (α : Type) := List (String × α)

/-- Content of the file at `p`, if present. -/
def fsRead {α : Type} : FS α → String → Option α
  | [], _ => none
  | (q, c) :: rest, p => if q = p then some c else fsRead rest p

/-- Write (create or overwrite) the file at `p`. -/
def fsWrite {α : Type} : FS α → String → α → FS α
  | [], p, c => [(p, c)]
  | (q, d) :: rest, p, c => if q = p then (p, c) :: rest else (q, d) :: fsWrite rest p c

/-- Remove the file at `p` (no-op when absent). -/
def fsErase {α : Type} : FS α → String → FS α
  | [], _ => []
  | (q, d) :: rest, p => if q = p then fsErase rest p else (q, d) :: fsErase rest p

/-- `shutil.move(src, dst)`: the call sites below only ever move an existing
file, so a missing source leaves the state unchanged. -/
def fsMove {α : Type} (fs : FS α) (src dst : String) : FS α :=
  match fsRead fs src with
  | some c => fsWrite (fsErase fs src) dst c
  | none => fs

/-- `shutil.copyfile(src, dst)`: likewise only ever applied to an existing
source file. -/
def fsCopyfile {α : Type} (fs : FS α) (src dst : String) : FS α :=
  match fsRead fs src with
  | some c => fsWrite fs dst c
  | none => fs

/-! ### XSIAM report export (`xsiam_report.py`) -/

/-- Modelled from the spec: the constant `XSIAM_REPORT`
(`demisto_sdk.commands.common.constants`, not under `src/`) is the type token
of the naming convention `<optional external- token><type-token>-<base-name>.<ext>`. -/
def xsiamReportTok : String := "report"

/-- Modelled from the spec: `generate_xsiam_normalized_name`
(`demisto_sdk.commands.common.tools`, not under `src/`).  Per §4.3 step 1 and
§6 of the spec, it strips/recognises an existing type token and produces the
externally-marked canonical name: a name already carrying `external-<tok>-` is
returned unchanged, a name carrying `<tok>-` gains the `external-` token, and
any other name gains the whole `external-<tok>-` marker. -/
def generate_xsiam_normalized_name (fileName tok : String) : String :=
  if pyStartsWith fileName ("external-" ++ tok ++ "-") then fileName
  else if pyStartsWith fileName (tok ++ "-") then "external-" ++ fileName
  else "external-" ++ tok ++ "-" ++ fileName

/-- The state of one XSIAM report node that `XSIAMReport.dump` consumes.
`dumpedName` is the file name under which the base-class dump
(`JSONContentObject.dump`, not under `src/`; modelled from the spec as
serializing the primary definition into `dest_dir`) writes the primary
artifact; it is kept abstract because the spec discusses both marked and
unmarked primary names (§4.3 step 3). -/
structure XSIAMReportNode where
  /-- `self.get('fromVersion', ...)`: `none` when the key is absent. -/
  fromVersion : Option SemVer
  /-- `self.get('toVersion', ...)`: `none` when the key is absent. -/
  toVersion : Option SemVer
  /-- `self._path.name`: the file name of the source definition. -/
  srcName : String
  /-- The file names present in the source definition's directory
  (what `self._path.parent.glob` can see). -/
  srcSiblings : List String
  /-- The serialized definition bytes the base-class dump writes. -/
  content : String
  /-- The bytes of the sibling image file, when one exists. -/
  imageContent : String
  /-- The file name the base-class dump produces for the primary artifact. -/
  dumpedName : String
deriving DecidableEq, Repr

/-- `Version(self.get('fromVersion', '0.0.0'))`. -/
def XSIAMReportNode.effFromVersion (n : XSIAMReportNode) : SemVer :=
  n.fromVersion.getD defaultFromVersion

/-- `Version(self.get('toVersion', '99.99.99'))`. -/
def XSIAMReportNode.effToVersion (n : XSIAMReportNode) : SemVer :=
  n.toVersion.getD defaultToVersion

/-- The sibling image name of the glob pattern
`fr"{re.escape(self.path.stem)}_image.png"`. -/
def XSIAMReport.imageName (n : XSIAMReportNode) : String :=
  stemOf n.srcName ++ "_image.png"

/-- `XSIAMReport.image_path`: the sibling image file name when the glob finds
one, else `None`. -/
def XSIAMReport.image_path (n : XSIAMReportNode) : Option String :=
  if XSIAMReport.imageName n ∈ n.srcSiblings then some (XSIAMReport.imageName n) else none

/-- `XSIAMReport.normalize_file_name`:
`generate_xsiam_normalized_name(self._path.name, XSIAM_REPORT)`. -/
def XSIAMReport.normalize_file_name (n : XSIAMReportNode) : String :=
  generate_xsiam_normalized_name n.srcName xsiamReportTok

/-- The `if` guard of `XSIAMReport.dump` line 67:
`Version(self.get('fromVersion', '0.0.0')) >= Version('6.10.0')`. -/
def modernOnlyBucket (fv _tv : SemVer) : Bool :=
  SemVer.le xsiamCutover fv

/-- The `elif` reachability condition of `XSIAMReport.dump` line 75: not
modern-only, and `Version(self.get('toVersion', '99.99.99')) < Version('6.10.0')`. -/
def legacyOnlyBucket (fv tv : SemVer) : Bool :=
  !modernOnlyBucket fv tv && SemVer.lt tv xsiamCutover

/-- The `else` reachability condition of `XSIAMReport.dump` line 83. -/
def straddlingBucket (fv tv : SemVer) : Bool :=
  !modernOnlyBucket fv tv && !(SemVer.lt tv xsiamCutover)

/-- What `XSIAMReport.dump` returns together with the file-system state it
leaves behind. -/
structure DumpResult where
  files : List String
  fs : FS String
deriving Repr

/-- `XSIAMReport.dump(dest_dir)`, lines 54–92 of `xsiam_report.py`:
base-class dump of the primary artifact, optional image dump, then the
version-gated rename/copy of the primary artifact. -/
def XSIAMReport.dump (n : XSIAMReportNode) (destDir : String) (fs0 : FS String) : DumpResult :=
  let primaryPath := destDir ++ "/" ++ n.dumpedName
  let fs1 := fsWrite fs0 primaryPath n.content
  let created1 : List String := [primaryPath]
  let step2 : List String × FS String :=
    match XSIAMReport.image_path n with
    | some img => (created1 ++ [destDir ++ "/" ++ img], fsWrite fs1 (destDir ++ "/" ++ img) n.imageContent)
    | none => (created1, fs1)
  let createdFiles := step2.1
  let fs2 := step2.2
  let newFilePath := createdFiles.headD ""
  if modernOnlyBucket n.effFromVersion n.effToVersion then
    if !(pyStartsWith (pathNameStr newFilePath) "external-") then
      let moveToPath := pathParentStr newFilePath ++ "/" ++ XSIAMReport.normalize_file_name n
      { files := (createdFiles.erase newFilePath) ++ [moveToPath],
        fs := fsMove fs2 newFilePath moveToPath }
    else
      { files := createdFiles, fs := fs2 }
  else if SemVer.lt n.effToVersion xsiamCutover then
    if pyStartsWith (pathNameStr newFilePath) "external-" then
      let moveToPath := pyReplaceDel newFilePath "external-"
      { files := (createdFiles.erase newFilePath) ++ [moveToPath],
        fs := fsMove fs2 newFilePath moveToPath }
    else
      { files := createdFiles, fs := fs2 }
  else
    let copyToPath :=
      if pyStartsWith (pathNameStr newFilePath) "external-" then pyReplaceDel newFilePath "external-"
      else pathParentStr newFilePath ++ "/" ++ XSIAMReport.normalize_file_name n
    { files := createdFiles, fs := fsCopyfile fs2 newFilePath copyToPath }

/-! ### Content graph (`content_item.py`) -/

/-- The node kinds the studied core distinguishes. -/
inductive ContentType
  | script
  | playbook
  | xsiam_report
deriving DecidableEq, Repr

/-- Modelled from the spec: `ContentType.server_name`
(`demisto_sdk.commands.content_graph.common`, not under `src/`): the canonical
per-kind server token prepended by `ContentItem.normalize_name`. -/
def ContentType.server_name : ContentType → String
  | .script => "automation"
  | .playbook => "playbook"
  | .xsiam_report => "report"

/-- Modelled from the spec: `ContentType.server_names()` (not under `src/`):
the known server tokens stripped by `ContentItem.normalize_name`. -/
def ContentType.server_names : List String :=
  ["automation", "playbook", "report"]

/-- The relationship kinds used by the studied traversals. -/
inductive RelationshipType
  | IN_PACK
  | USES
  | TESTED_BY
deriving DecidableEq, Repr

/-- A graph vertex as referenced from a relationship record. -/
structure GraphNode where
  object_id : String
deriving DecidableEq, Repr

/-- `RelationshipData` as documented in `ContentItem.uses`: the resolved
neighbour `content_item`, the declared `source`/`target`, and the edge
attributes. -/
structure RelationshipData where
  relationship_type : RelationshipType
  source : GraphNode
  target : GraphNode
  content_item : GraphNode
  is_direct : Bool
  mandatorily : Bool := false
deriving DecidableEq, Repr

/-- The marketplaces of `MarketplaceVersions`. -/
inductive MarketplaceVersions
  | XSOAR
  | MarketplaceV2
  | XPANSE
deriving DecidableEq, Repr

/-- The definition-file payload visible to `prepare_for_upload`; modelled from
the spec's "marketplace-specific field aliasing rewrites `id`/`name`":
the alternate fields are kept next to the canonical ones. -/
structure ItemData where
  item_id : String
  item_name : String
  id_x2 : Option String := none
  name_x2 : Option String := none
deriving DecidableEq, Repr

/-- Modelled from the spec: `alternate_item_fields`
(`demisto_sdk.commands.common.tools`, not under `src/`) rewrites the canonical
`id`/`name` with their marketplace-alternate values when present. -/
def alternate_item_fields (d : ItemData) : ItemData :=
  { d with item_id := d.id_x2.getD d.item_id, item_name := d.name_x2.getD d.item_name }

/-- The state of one content-graph node that the `ContentItem` queries and
`ContentItem.dump` consume.  `relationships_data` embeds the node's
incident-edge index, keyed by relationship kind (the spec's ordered sequence
per kind). -/
structure ContentItemNode where
  object_id : String
  name : String
  content_type : ContentType
  /-- `self.path.name`. -/
  pathName : String
  /-- The parsed definition-file payload `self.data`. -/
  data : ItemData
  relationships_data : RelationshipType → List RelationshipData
  deprecated : Bool := false
  is_test : Bool := false

/-- `ContentItem.in_pack` (lines 35–46): the `content_item` of the first
`IN_PACK` edge, or `None` when there is none. -/
def ContentItem.in_pack (n : ContentItemNode) : Option GraphNode :=
  match n.relationships_data RelationshipType.IN_PACK with
  | [] => none
  | r :: _ => some r.content_item

/-- `ContentItem.uses` (lines 48–75): the `USES` edges whose resolved
`content_item` equals the declared `target`. -/
def ContentItem.uses (n : ContentItemNode) : List RelationshipData :=
  (n.relationships_data RelationshipType.USES).filter
    (fun r => r.content_item == r.target)

/-- `ContentItem.tested_by` (lines 77–89): the `content_item` of each
`TESTED_BY` edge whose resolved `content_item` equals the declared `target`. -/
def ContentItem.tested_by (n : ContentItemNode) : List GraphNode :=
  ((n.relationships_data RelationshipType.TESTED_BY).filter
    (fun r => r.content_item == r.target)).map (fun r => r.content_item)

/-- `ContentItem.normalize_name` (lines 126–142): remove every known server
token followed by `'-'` (in `server_names()` order, each via
`str.replace(..., '')`), then prepend this node's server token and `'-'`. -/
def ContentItem.normalize_name (ct : ContentType) (pathName : String) : String :=
  let name := ContentType.server_names.foldl (fun nm p => pyReplaceDel nm (p ++ "-")) pathName
  ct.server_name ++ "-" ++ name

/-- `ContentItem.prepare_for_upload` (lines 106–110): apply the alternate-field
rewriting exactly when the marketplace differs from XSOAR. -/
def ContentItem.prepare_for_upload (n : ContentItemNode)
    (marketplace : MarketplaceVersions := MarketplaceVersions.XSOAR) : ItemData :=
  if marketplace != MarketplaceVersions.XSOAR then alternate_item_fields n.data else n.data

/-- `ContentItem.dump` (lines 144–148): write `prepare_for_upload()` (with its
default marketplace) under the normalized name; the marketplace parameter is
the ignored `_` of the source signature. -/
def ContentItem.dump (n : ContentItemNode) (dir : String) (_mk : MarketplaceVersions)
    (fs : FS ItemData) : FS ItemData :=
  fsWrite fs (dir ++ "/" ++ ContentItem.normalize_name n.content_type n.pathName)
    (ContentItem.prepare_for_upload n)

/-! ### Concrete sample states (used by the closed witness theorems) -/

/-- A sample definition-file payload. -/
def sampleItemData : ItemData :=
  { item_id := "id1", item_name := "name1" }

/-- An `IN_PACK` edge resolving to pack `PackA`. -/
def relPackA : RelationshipData :=
  { relationship_type := RelationshipType.IN_PACK, source := ⟨"item1"⟩,
    target := ⟨"PackA"⟩, content_item := ⟨"PackA"⟩, is_direct := true }

/-- A second `IN_PACK` edge resolving to pack `PackB`. -/
def relPackB : RelationshipData :=
  { relationship_type := RelationshipType.IN_PACK, source := ⟨"item1"⟩,
    target := ⟨"PackB"⟩, content_item := ⟨"PackB"⟩, is_direct := true }

/-- An incident-edge index with no edges at all. -/
def emptyRels : RelationshipType → List RelationshipData := fun _ => []

/-- An incident-edge index with two `IN_PACK` edges. -/
def twoPackRels : RelationshipType → List RelationshipData := fun k =>
  match k with
  | RelationshipType.IN_PACK => [relPackA, relPackB]
  | _ => []

/-- A sample content item with no relationships. -/
def emptyNode : ContentItemNode :=
  { object_id := "item1", name := "Item 1", content_type := ContentType.script,
    pathName := "foo.yml", data := sampleItemData, relationships_data := emptyRels }

/-- A sample content item that sits (ambiguously) in two packs. -/
def twoPackNode : ContentItemNode :=
  { object_id := "item1", name := "Item 1", content_type := ContentType.script,
    pathName := "foo.yml", data := sampleItemData, relationships_data := twoPackRels }

/-- A report node with an open (defaulted) version range, no sibling image and
an externally-marked primary artifact name. -/
def xsrNodeStraddle : XSIAMReportNode :=
  { fromVersion := none, toVersion := none, srcName := "foo.json", srcSiblings := [],
    content := "BODY", imageContent := "", dumpedName := "external-report-foo.json" }

/-- A report node pinned to the modern range `6.10.0 .. 99.99.99` whose primary
artifact name lacks the `external-` token. -/
def xsrNodeModern : XSIAMReportNode :=
  { fromVersion := some ⟨6, 10, 0⟩, toVersion := some ⟨99, 99, 99⟩, srcName := "foo.json",
    srcSiblings := [], content := "BODY", imageContent := "",
    dumpedName := "report-foo.json" }

/-- A report node pinned to the legacy range `0.0.0 .. 6.9.0` whose primary
artifact name carries the `external-` token. -/
def xsrNodeLegacy : XSIAMReportNode :=
  { fromVersion := some ⟨0, 0, 0⟩, toVersion := some ⟨6, 9, 0⟩, srcName := "foo.json",
    srcSiblings := [], content := "BODY", imageContent := "",
    dumpedName := "external-report-foo.json" }

/-- A report node with a sibling `foo_image.png` next to its definition. -/
def xsrNodeImage : XSIAMReportNode :=
  { fromVersion := none, toVersion := none, srcName := "foo.json",
    srcSiblings := ["foo_image.png"], content := "BODY", imageContent := "IMG",
    dumpedName := "external-report-foo.json" }

/-! ### Helper lemmas: strings and character lists -/

theorem strData_append (a b : String) : (a ++ b).data = a.data ++ b.data := by
  cases a
  cases b
  rfl

theorem strData_inj {a b : String} (h : a.data = b.data) : a = b := by
  cases a
  cases b
  exact congrArg String.mk h

theorem isPrefixOf_append_self (pat l : List Char) : pat.isPrefixOf (pat ++ l) = true := by
  induction pat with
  | nil => simp
  | cons c rest ih => simp [List.isPrefixOf, ih]

theorem stripAllAux_skip_drop (pat : List Char) :
    ∀ (s : Nat) (l : List Char), s ≤ l.length → stripAllAux pat l s = stripAllAux pat (l.drop s) 0 := by
  intro s
  induction s with
  | zero => intro l _; simp
  | succ k ih =>
    intro l hl
    match l with
    | [] => simp at hl
    | c :: rest =>
      have : stripAllAux pat (c :: rest) (k + 1) = stripAllAux pat rest k := rfl
      rw [this, ih rest (by simpa using Nat.le_of_succ_le_succ hl)]
      rfl

theorem stripAllAux_of_no_match (pat : List Char) :
    ∀ l : List Char, hasMatch pat l = false → stripAllAux pat l 0 = l := by
  intro l
  induction l with
  | nil => intro _; rfl
  | cons c rest ih =>
    intro h
    have h' : pat.isPrefixOf (c :: rest) = false ∧ hasMatch pat rest = false := by
      simpa [hasMatch] using h
    simp [stripAllAux, h'.1, ih h'.2]

theorem stripAll_of_no_match {pat l : List Char} (h : hasMatch pat l = false) :
    stripAll pat l = l := by
  by_cases hp : pat.isEmpty
  · simp [stripAll, hp]
  · simp [stripAll, hp, stripAllAux_of_no_match pat l h]

theorem stripAll_cons_of_lead (pat l : List Char) (hpat : pat ≠ []) :
    stripAll pat (pat ++ l) = stripAll pat l := by
  have hne : pat.isEmpty = false := by
    cases pat with
    | nil => exact absurd rfl hpat
    | cons c r => rfl
  match pat, hpat with
  | p0 :: p', _ =>
    have hpre : (p0 :: p').isPrefixOf ((p0 :: p') ++ l) = true := isPrefixOf_append_self _ _
    have step : stripAllAux (p0 :: p') ((p0 :: p') ++ l) 0
        = stripAllAux (p0 :: p') (p' ++ l) ((p0 :: p').length - 1) := by
      simp [stripAllAux, hpre]
    have hlen : (p0 :: p').length - 1 = p'.length := by simp
    rw [stripAll, stripAll, if_neg (by simp), if_neg (by simp), step, hlen,
      stripAllAux_skip_drop _ p'.length (p' ++ l) (by simp), List.drop_left]

theorem stripAllAux_length_le (pat : List Char) :
    ∀ (l : List Char) (s : Nat), (stripAllAux pat l s).length ≤ l.length := by
  intro l
  induction l with
  | nil => intro s; simp [stripAllAux]
  | cons c rest ih =>
    intro s
    match s with
    | Nat.succ k =>
      have : stripAllAux pat (c :: rest) (k + 1) = stripAllAux pat rest k := rfl
      rw [this]
      exact Nat.le_trans (ih k) (by simp)
    | 0 =>
      by_cases hpre : pat.isPrefixOf (c :: rest) = true
      · have : stripAllAux pat (c :: rest) 0 = stripAllAux pat rest (pat.length - 1) := by
          simp [stripAllAux, hpre]
        rw [this]
        exact Nat.le_trans (ih _) (by simp)
      · have : stripAllAux pat (c :: rest) 0 = c :: stripAllAux pat rest 0 := by
          simp [stripAllAux, hpre]
        rw [this]
        simpa using ih 0

theorem stripAll_length_le (pat l : List Char) : (stripAll pat l).length ≤ l.length := by
  by_cases hp : pat.isEmpty
  · simp [stripAll, hp]
  · simp only [stripAll, hp, if_neg, Bool.false_eq_true, not_false_iff]
    exact stripAllAux_length_le pat l 0

theorem stripAllAux_slash_split (pat : List Char) (hpat : pat ≠ []) (hslash : '/' ∉ pat)
    (u v : List Char) :
    stripAllAux pat (u ++ '/' :: v) 0 = stripAllAux pat u 0 ++ '/' :: stripAllAux pat v 0 := by
  match u with
  | [] =>
    have hpre : pat.isPrefixOf ('/' :: v) = false := by
      match pat, hpat with
      | p0 :: p', _ =>
        have hp0 : p0 ≠ '/' := fun h => hslash (h ▸ List.mem_cons_self p0 p')
        simp [List.isPrefixOf_cons₂, hp0]
    simp [stripAllAux, hpre]
  | c :: u' =>
    by_cases hpre : pat.isPrefixOf ((c :: u') ++ '/' :: v) = true
    · have hprefix : pat <+: (c :: u') ++ '/' :: v := List.isPrefixOf_iff_prefix.mp hpre
      have hlen : pat.length ≤ (c :: u').length := by
        by_contra hgt
        push_neg at hgt
        have heq : pat = ((c :: u') ++ '/' :: v).take pat.length :=
          List.prefix_iff_eq_take.mp hprefix
        have hmem : '/' ∈ pat := by
          have hidx2 : (c :: u').length < (((c :: u') ++ '/' :: v).take pat.length).length := by
            simp only [List.length_take, List.length_append, List.length_cons, lt_min_iff]
            simp only [List.length_cons] at hgt
            omega
          have hget : (((c :: u') ++ '/' :: v).take pat.length)[(c :: u').length] = '/' := by
            rw [List.getElem_take]
            rw [List.getElem_append_right (Nat.le_refl _)]
            simp
          have hmem2 := List.getElem_mem hidx2
          rw [hget] at hmem2
          rw [heq]
          exact hmem2
        exact hslash hmem
      have hprefix' : pat <+: (c :: u') := by
        rw [List.prefix_iff_eq_take] at hprefix ⊢
        rwa [List.take_append_eq_append_take, Nat.sub_eq_zero_of_le hlen, List.take_zero,
          List.append_nil] at hprefix
      have hpre' : pat.isPrefixOf (c :: u') = true := List.isPrefixOf_iff_prefix.mpr hprefix'
      have hk : pat.length - 1 ≤ u'.length := by
        simp only [List.length_cons] at hlen
        omega
      have lhs1 : stripAllAux pat ((c :: u') ++ '/' :: v) 0
          = stripAllAux pat (u' ++ '/' :: v) (pat.length - 1) := by
        have : (c :: u') ++ '/' :: v = c :: (u' ++ '/' :: v) := rfl
        rw [this]
        simp [stripAllAux, show pat.isPrefixOf (c :: (u' ++ '/' :: v)) = true from hpre]
      have lhs2 : stripAllAux pat (u' ++ '/' :: v) (pat.length - 1)
          = stripAllAux pat (u'.drop (pat.length - 1) ++ '/' :: v) 0 := by
        rw [stripAllAux_skip_drop pat (pat.length - 1) (u' ++ '/' :: v)
          (by simp; omega)]
        rw [List.drop_append_eq_append_drop, Nat.sub_eq_zero_of_le hk, List.drop_zero]
      have rhs1 : stripAllAux pat (c :: u') 0 = stripAllAux pat (u'.drop (pat.length - 1)) 0 := by
        rw [show stripAllAux pat (c :: u') 0 = stripAllAux pat u' (pat.length - 1) by
          simp [stripAllAux, hpre']]
        exact stripAllAux_skip_drop pat (pat.length - 1) u' hk
      rw [lhs1, lhs2, rhs1,
        stripAllAux_slash_split pat hpat hslash (u'.drop (pat.length - 1)) v]
    · have hpre' : pat.isPrefixOf (c :: u') = false := by
        by_contra hh
        have : pat.isPrefixOf (c :: u') = true := by
          cases h : pat.isPrefixOf (c :: u') with
          | true => rfl
          | false => exact absurd h hh
        have h1 : pat <+: (c :: u') := List.isPrefixOf_iff_prefix.mp this
        have h2 : pat <+: (c :: u') ++ '/' :: v := h1.trans (List.prefix_append _ _)
        exact hpre (List.isPrefixOf_iff_prefix.mpr h2)
      have hpreF : pat.isPrefixOf ((c :: u') ++ '/' :: v) = false := by
        cases h : pat.isPrefixOf ((c :: u') ++ '/' :: v) with
        | true => exact absurd h hpre
        | false => rfl
      have lhs1 : stripAllAux pat ((c :: u') ++ '/' :: v) 0
          = c :: stripAllAux pat (u' ++ '/' :: v) 0 := by
        have hform : (c :: u') ++ '/' :: v = c :: (u' ++ '/' :: v) := rfl
        rw [hform] at hpreF ⊢
        simp [stripAllAux, hpreF]
      have rhs1 : stripAllAux pat (c :: u') 0 = c :: stripAllAux pat u' 0 := by
        simp [stripAllAux, hpre']
      rw [lhs1, rhs1, stripAllAux_slash_split pat hpat hslash u' v]
      rfl
termination_by u.length
decreasing_by
  · simp only [List.length_cons]
    have := List.length_drop (pat.length - 1) u'
    omega
  · simp

theorem stripAll_slash_split {pat : List Char} (hslash : '/' ∉ pat) (u v : List Char) :
    stripAll pat (u ++ '/' :: v) = stripAll pat u ++ '/' :: stripAll pat v := by
  by_cases hp : pat.isEmpty
  · simp [stripAll, hp]
  · have hpat : pat ≠ [] := by
      cases pat with
      | nil => simp at hp
      | cons a b => exact List.cons_ne_nil a b
    simp [stripAll, hp, stripAllAux_slash_split pat hpat hslash u v]

theorem strMk_data (s : String) : String.mk s.data = s := by
  cases s
  rfl

theorem takeWhile_all_append {p : Char → Bool} (a : List Char) (ha : ∀ c ∈ a, p c = true)
    (b : Char) (hb : p b = false) (t : List Char) :
    (a ++ b :: t).takeWhile p = a := by
  induction a with
  | nil => simp [List.takeWhile, hb]
  | cons c a' ih =>
    have hc : p c = true := ha c (List.mem_cons_self c a')
    simp only [List.cons_append, List.takeWhile_cons, hc, if_true]
    rw [ih (fun x hx => ha x (List.mem_cons_of_mem c hx))]

theorem dropWhile_all_append {p : Char → Bool} (a : List Char) (ha : ∀ c ∈ a, p c = true)
    (b : Char) (hb : p b = false) (t : List Char) :
    (a ++ b :: t).dropWhile p = b :: t := by
  induction a with
  | nil => simp [List.dropWhile, hb]
  | cons c a' ih =>
    have hc : p c = true := ha c (List.mem_cons_self c a')
    simp only [List.cons_append, List.dropWhile_cons, hc, if_true]
    exact ih (fun x hx => ha x (List.mem_cons_of_mem c hx))

theorem lastComponent_append (u nm : List Char) (h : '/' ∉ nm) :
    lastComponent (u ++ '/' :: nm) = nm := by
  unfold lastComponent
  rw [List.reverse_append, List.reverse_cons, List.append_assoc, List.singleton_append]
  rw [takeWhile_all_append nm.reverse
    (fun c hc => by
      have : c ∈ nm := List.mem_reverse.mp hc
      simp only [decide_eq_true_eq]
      exact fun hcc => h (hcc ▸ this))
    '/' (by simp) u.reverse]
  exact List.reverse_reverse nm

theorem dirComponent_append (u nm : List Char) (h : '/' ∉ nm) :
    dirComponent (u ++ '/' :: nm) = u := by
  unfold dirComponent
  rw [List.reverse_append, List.reverse_cons, List.append_assoc, List.singleton_append]
  rw [dropWhile_all_append nm.reverse
    (fun c hc => by
      have : c ∈ nm := List.mem_reverse.mp hc
      simp only [decide_eq_true_eq]
      exact fun hcc => h (hcc ▸ this))
    '/' (by simp) u.reverse]
  simp

theorem joined_path_data (d nm : String) :
    (d ++ "/" ++ nm).data = d.data ++ '/' :: nm.data := by
  rw [strData_append, strData_append]
  have : ("/" : String).data = ['/'] := rfl
  rw [this, List.append_assoc, List.singleton_append]

theorem pathNameStr_joined (d nm : String) (h : '/' ∉ nm.data) :
    pathNameStr (d ++ "/" ++ nm) = nm := by
  unfold pathNameStr
  rw [joined_path_data, lastComponent_append d.data nm.data h, strMk_data]

theorem pathParentStr_joined (d nm : String) (h : '/' ∉ nm.data) :
    pathParentStr (d ++ "/" ++ nm) = d := by
  unfold pathParentStr
  rw [joined_path_data, dirComponent_append d.data nm.data h, strMk_data]

theorem pyStartsWith_append_self (p s : String) : pyStartsWith (p ++ s) p = true := by
  unfold pyStartsWith
  rw [strData_append]
  exact isPrefixOf_append_self _ _

theorem pyStartsWith_iff_exists (s p : String) :
    pyStartsWith s p = true ↔ ∃ t : String, s = p ++ t := by
  unfold pyStartsWith
  rw [List.isPrefixOf_iff_prefix]
  constructor
  · rintro ⟨t, ht⟩
    refine ⟨⟨t⟩, strData_inj ?_⟩
    rw [strData_append]
    exact ht.symm
  · rintro ⟨t, rfl⟩
    rw [strData_append]
    exact ⟨t.data, rfl⟩

theorem pyStartsWith_false_of_no_match {s p : String} (h : hasMatch p.data s.data = false)
    (hp : p.data ≠ []) : pyStartsWith s p = false := by
  unfold pyStartsWith
  match hs : s.data with
  | [] =>
    match hpd : p.data, hp with
    | c :: rest, _ => rfl
  | c :: rest =>
    rw [hs] at h
    have := by simpa [hasMatch] using h
    exact this.1

/-! ### Helper lemmas: file-system primitives -/

theorem fsRead_fsWrite_self {α : Type} (fs : FS α) (p : String) (c : α) :
    fsRead (fsWrite fs p c) p = some c := by
  induction fs with
  | nil => simp [fsRead, fsWrite]
  | cons e rest ih =>
    obtain ⟨q, d⟩ := e
    by_cases h : q = p
    · simp [fsRead, fsWrite, h]
    · simp [fsRead, fsWrite, h, ih]

theorem fsRead_fsWrite_ne {α : Type} (fs : FS α) (p q : String) (c : α) (h : q ≠ p) :
    fsRead (fsWrite fs p c) q = fsRead fs q := by
  have hpq : ¬ p = q := fun hh => h hh.symm
  induction fs with
  | nil => simp [fsRead, fsWrite, hpq]
  | cons e rest ih =>
    obtain ⟨r, d⟩ := e
    simp only [fsWrite]
    split_ifs with h1
    · subst h1
      simp only [fsRead]
      rw [if_neg hpq, if_neg hpq]
    · simp only [fsRead]
      split_ifs with h2
      · rfl
      · exact ih

theorem fsRead_fsErase_self {α : Type} (fs : FS α) (p : String) :
    fsRead (fsErase fs p) p = none := by
  induction fs with
  | nil => simp [fsRead, fsErase]
  | cons e rest ih =>
    obtain ⟨q, d⟩ := e
    simp only [fsErase]
    split_ifs with h1
    · exact ih
    · simp only [fsRead]
      rw [if_neg h1]
      exact ih

theorem fsRead_fsErase_ne {α : Type} (fs : FS α) (p q : String) (h : q ≠ p) :
    fsRead (fsErase fs p) q = fsRead fs q := by
  have hpq : ¬ p = q := fun hh => h hh.symm
  induction fs with
  | nil => simp [fsRead, fsErase]
  | cons e rest ih =>
    obtain ⟨r, d⟩ := e
    simp only [fsErase]
    split_ifs with h1
    · subst h1
      simp only [fsRead]
      rw [if_neg hpq]
      exact ih
    · simp only [fsRead]
      split_ifs with h2
      · rfl
      · exact ih

theorem fsMove_spec {α : Type} (fs : FS α) (src dst : String) (c : α)
    (hread : fsRead fs src = some c) (hne : src ≠ dst) :
    fsRead (fsMove fs src dst) dst = some c ∧ fsRead (fsMove fs src dst) src = none := by
  unfold fsMove
  rw [hread]
  constructor
  · exact fsRead_fsWrite_self _ _ _
  · rw [fsRead_fsWrite_ne _ _ _ _ hne]
    exact fsRead_fsErase_self _ _

/-! ### Helper lemmas: version order -/

theorem SemVer.lt_iff (a b : SemVer) : SemVer.lt a b = true ↔
    (a.major < b.major ∨ (a.major = b.major ∧
      (a.minor < b.minor ∨ (a.minor = b.minor ∧ a.micro < b.micro)))) := by
  unfold SemVer.lt
  split_ifs with h1 h2 <;> simp_all

theorem SemVer.le_iff (a b : SemVer) : SemVer.le a b = true ↔
    (SemVer.lt a b = true ∨ a = b) := by
  unfold SemVer.le
  simp [beq_iff_eq]

theorem SemVer.le_eq_not_lt (a b : SemVer) : SemVer.le a b = !SemVer.lt b a := by
  obtain ⟨a1, a2, a3⟩ := a
  obtain ⟨b1, b2, b3⟩ := b
  rw [Bool.eq_iff_iff, SemVer.le_iff, Bool.not_eq_true']
  rw [← Bool.not_eq_true (SemVer.lt ⟨b1, b2, b3⟩ ⟨a1, a2, a3⟩)]
  simp only [SemVer.lt_iff, SemVer.mk.injEq]
  constructor
  · rintro (h | ⟨h1, h2, h3⟩)
    · omega
    · omega
  · intro h
    omega

/-! ### Claim C2 -/

/-- Claim C2: for every pair of (possibly missing) version fields, after
substituting the defaults `0.0.0` and `99.99.99`, exactly one of the three
export buckets of `XSIAMReport.dump` applies, and the straddling bucket is
taken iff `fromVersion < 6.10.0 <= toVersion`. -/
theorem c2_version_bucket_totality (fv0 tv0 : Option SemVer) :
    ((modernOnlyBucket (fv0.getD defaultFromVersion) (tv0.getD defaultToVersion)).toNat
      + (legacyOnlyBucket (fv0.getD defaultFromVersion) (tv0.getD defaultToVersion)).toNat
      + (straddlingBucket (fv0.getD defaultFromVersion) (tv0.getD defaultToVersion)).toNat = 1)
    ∧ (straddlingBucket (fv0.getD defaultFromVersion) (tv0.getD defaultToVersion) = true
       ↔ (SemVer.lt (fv0.getD defaultFromVersion) xsiamCutover = true
           ∧ SemVer.le xsiamCutover (tv0.getD defaultToVersion) = true)) := by
  set fv := fv0.getD defaultFromVersion with hfv
  set tv := tv0.getD defaultToVersion with htv
  constructor
  · cases hm : modernOnlyBucket fv tv <;> cases hl : SemVer.lt tv xsiamCutover <;>
      simp [legacyOnlyBucket, straddlingBucket, hm, hl]
  · rw [straddlingBucket, modernOnlyBucket,
      SemVer.le_eq_not_lt xsiamCutover fv, SemVer.le_eq_not_lt xsiamCutover tv]
    cases SemVer.lt fv xsiamCutover <;> cases SemVer.lt tv xsiamCutover <;> simp

/-! ### Claim C6 -/

/-- Claim C6: `ContentItem.uses` returns exactly the `USES` edges whose
resolved `content_item` equals the declared `target` (each edge record still
carrying its `mandatorily` flag), and `ContentItem.tested_by` returns the
`content_item` of exactly the `TESTED_BY` edges satisfying the same guard. -/
theorem c6_uses_tested_by_direction_guard (n : ContentItemNode) :
    (∀ r : RelationshipData,
      r ∈ ContentItem.uses n
        ↔ r ∈ n.relationships_data RelationshipType.USES ∧ r.content_item = r.target)
    ∧ (∀ x : GraphNode,
      x ∈ ContentItem.tested_by n
        ↔ ∃ r : RelationshipData,
            r ∈ n.relationships_data RelationshipType.TESTED_BY
              ∧ r.content_item = r.target ∧ x = r.content_item) := by
  constructor
  · intro r
    unfold ContentItem.uses
    rw [List.mem_filter]
    simp [beq_iff_eq]
  · intro x
    unfold ContentItem.tested_by
    rw [List.mem_map]
    constructor
    · rintro ⟨r, hr, rfl⟩
      rw [List.mem_filter] at hr
      exact ⟨r, hr.1, by simpa using hr.2, rfl⟩
    · rintro ⟨r, h1, h2, rfl⟩
      exact ⟨r, List.mem_filter.mpr ⟨h1, by simpa using h2⟩, rfl⟩

/-! ### Claim C7 -/

/-- Claim C7: the graph traversals are total and signal absence with empty
results: a node with no `IN_PACK` edge yields `none` from `in_pack`, a node
with no `USES` (resp. `TESTED_BY`) edge yields `[]` from `uses`
(resp. `tested_by`); being plain total functions, none of them can raise. -/
theorem c7_traversal_totality (n : ContentItemNode) :
    (n.relationships_data RelationshipType.IN_PACK = [] → ContentItem.in_pack n = none)
    ∧ (n.relationships_data RelationshipType.USES = [] → ContentItem.uses n = [])
    ∧ (n.relationships_data RelationshipType.TESTED_BY = [] → ContentItem.tested_by n = []) := by
  refine ⟨fun h1 => ?_, fun h2 => ?_, fun h3 => ?_⟩
  · unfold ContentItem.in_pack
    rw [h1]
  · unfold ContentItem.uses
    rw [h2]
    rfl
  · unfold ContentItem.tested_by
    rw [h3]
    rfl

/-- Witness for C7 at a concrete node with no relationships. -/
theorem c7_traversal_totality_witness :
    ContentItem.in_pack emptyNode = none
    ∧ ContentItem.uses emptyNode = []
    ∧ ContentItem.tested_by emptyNode = [] :=
  ⟨(c7_traversal_totality emptyNode).1 rfl,
   (c7_traversal_totality emptyNode).2.1 rfl,
   (c7_traversal_totality emptyNode).2.2 rfl⟩

/-! ### Claim C8 -/

/-- Claim C8: with several `IN_PACK` edges, `ContentItem.in_pack` returns the
first one found, and it is deterministic: nodes with identical (unchanged)
`IN_PACK` edge sequences produce the identical pack answer. -/
theorem c8_in_pack_first_found_deterministic :
    (∀ (n : ContentItemNode) (r : RelationshipData) (rest : List RelationshipData),
      n.relationships_data RelationshipType.IN_PACK = r :: rest →
      ContentItem.in_pack n = some r.content_item)
    ∧ (∀ n1 n2 : ContentItemNode,
      n1.relationships_data RelationshipType.IN_PACK
          = n2.relationships_data RelationshipType.IN_PACK →
      ContentItem.in_pack n1 = ContentItem.in_pack n2) := by
  constructor
  · intro n r rest h
    unfold ContentItem.in_pack
    rw [h]
  · intro n1 n2 h
    unfold ContentItem.in_pack
    rw [h]

/-- Witness for C8 at a concrete node with two `IN_PACK` edges: the first
edge's pack is returned, and the call is reproducible. -/
theorem c8_in_pack_first_found_deterministic_witness :
    ContentItem.in_pack twoPackNode = some ⟨"PackA"⟩
    ∧ ContentItem.in_pack twoPackNode = ContentItem.in_pack twoPackNode :=
  ⟨(c8_in_pack_first_found_deterministic).1 twoPackNode relPackA [relPackB] rfl,
   (c8_in_pack_first_found_deterministic).2 twoPackNode twoPackNode rfl⟩

/-! ### Claim C10 -/

/-- Claim C10: `ContentItem.dump` ignores its marketplace argument — for any
two marketplaces it writes a file with the same name and content — because
`prepare_for_upload` is invoked with its default XSOAR marketplace, so the
alternate-field rewriting branch is never taken and the raw payload is
written. -/
theorem c10_dump_ignores_marketplace (n : ContentItemNode) (dir : String)
    (m1 m2 : MarketplaceVersions) (fs : FS ItemData) :
    ContentItem.dump n dir m1 fs = ContentItem.dump n dir m2 fs
    ∧ ContentItem.prepare_for_upload n = n.data
    ∧ fsRead (ContentItem.dump n dir m1 fs)
        (dir ++ "/" ++ ContentItem.normalize_name n.content_type n.pathName) = some n.data := by
  refine ⟨rfl, rfl, ?_⟩
  unfold ContentItem.dump
  have hd : ContentItem.prepare_for_upload n = n.data := rfl
  rw [hd]
  exact fsRead_fsWrite_self _ _ _

/-! ### Helper lemmas: the export path algebra -/

theorem ne_of_data_length_ne {a b : String} (h : a.data.length ≠ b.data.length) : a ≠ b :=
  fun hh => h (by rw [hh])

theorem joined_path_inj {d a b : String} (h : d ++ "/" ++ a = d ++ "/" ++ b) : a = b := by
  have hd : (d ++ "/" ++ a).data = (d ++ "/" ++ b).data := by rw [h]
  rw [joined_path_data, joined_path_data] at hd
  exact strData_inj (by simpa using hd)

theorem joined_ne_of_name_ne {d : String} {a b : String} (h : a ≠ b) :
    d ++ "/" ++ a ≠ d ++ "/" ++ b :=
  fun hh => h (joined_path_inj hh)

theorem extTok_data_ne_nil : ("external-" : String).data ≠ [] := by decide

theorem extTok_no_slash : '/' ∉ ("external-" : String).data := by decide

theorem pyReplaceDel_joined_split (destDir rest : String) :
    (pyReplaceDel (destDir ++ "/" ++ ("external-" ++ rest)) "external-").data
      = stripAll ("external-" : String).data destDir.data
        ++ '/' :: stripAll ("external-" : String).data rest.data := by
  unfold pyReplaceDel
  show stripAll ("external-" : String).data (destDir ++ "/" ++ ("external-" ++ rest)).data = _
  rw [joined_path_data, stripAll_slash_split extTok_no_slash, strData_append,
    stripAll_cons_of_lead _ _ extTok_data_ne_nil]

theorem pyReplaceDel_joined_length_lt (destDir rest : String) :
    ((pyReplaceDel (destDir ++ "/" ++ ("external-" ++ rest)) "external-").data).length
      < ((destDir ++ "/" ++ ("external-" ++ rest)).data).length := by
  rw [pyReplaceDel_joined_split, joined_path_data, strData_append]
  have h1 := stripAll_length_le ("external-" : String).data destDir.data
  have h2 := stripAll_length_le ("external-" : String).data rest.data
  have hlit : ("external-" : String).data = ['e', 'x', 't', 'e', 'r', 'n', 'a', 'l', '-'] := rfl
  rw [hlit] at h1 h2 ⊢
  simp only [List.length_append, List.length_cons]
  have h3 : (['e', 'x', 't', 'e', 'r', 'n', 'a', 'l', '-'] : List Char).length = 9 := rfl
  omega

theorem pyReplaceDel_joined_of_no_match (destDir rest : String)
    (hr : hasMatch ("external-" : String).data rest.data = false) :
    pyReplaceDel (destDir ++ "/" ++ ("external-" ++ rest)) "external-"
      = String.mk (stripAll ("external-" : String).data destDir.data) ++ "/" ++ rest := by
  apply strData_inj
  rw [pyReplaceDel_joined_split, joined_path_data, stripAll_of_no_match hr]

theorem normalize_startsWith_ext (n : XSIAMReportNode) :
    pyStartsWith (XSIAMReport.normalize_file_name n) "external-" = true := by
  unfold XSIAMReport.normalize_file_name generate_xsiam_normalized_name
  split_ifs with h1 h2
  · rw [pyStartsWith_iff_exists] at h1 ⊢
    obtain ⟨t, ht⟩ := h1
    exact ⟨xsiamReportTok ++ "-" ++ t, by rw [ht]; simp [String.append_assoc]⟩
  · exact pyStartsWith_append_self _ _
  · rw [pyStartsWith_iff_exists]
    exact ⟨xsiamReportTok ++ "-" ++ n.srcName, by simp [String.append_assoc]⟩

theorem normalize_no_slash (n : XSIAMReportNode) (h : '/' ∉ n.srcName.data) :
    '/' ∉ (XSIAMReport.normalize_file_name n).data := by
  unfold XSIAMReport.normalize_file_name generate_xsiam_normalized_name
  split_ifs with h1 h2
  · exact h
  · rw [strData_append]
    intro hmem
    rcases List.mem_append.mp hmem with hone | htwo
    · exact absurd hone (by decide)
    · exact h htwo
  · rw [strData_append, strData_append]
    intro hmem
    rcases List.mem_append.mp hmem with hone | htwo
    · rcases List.mem_append.mp hone with ha | hb
      · exact absurd ha (by decide)
      · exact absurd hb (by decide)
    · exact h htwo

theorem fsCopyfile_reads {fs2 : FS String} {p1 target c : String}
    (hr : fsRead fs2 p1 = some c) (hne : p1 ≠ target) :
    fsRead (fsCopyfile fs2 p1 target) target = some c
    ∧ fsRead (fsCopyfile fs2 p1 target) p1 = some c := by
  unfold fsCopyfile
  rw [hr]
  refine ⟨fsRead_fsWrite_self _ _ _, ?_⟩
  rw [fsRead_fsWrite_ne _ _ _ _ hne]
  exact hr

theorem primary_ne_strip (destDir rest : String) :
    destDir ++ "/" ++ ("external-" ++ rest)
      ≠ pyReplaceDel (destDir ++ "/" ++ ("external-" ++ rest)) "external-" := by
  apply ne_of_data_length_ne
  have := pyReplaceDel_joined_length_lt destDir rest
  omega

theorem primary_ne_norm (n : XSIAMReportNode) (destDir : String)
    (hsw : pyStartsWith n.dumpedName "external-" = false) :
    destDir ++ "/" ++ n.dumpedName ≠ destDir ++ "/" ++ XSIAMReport.normalize_file_name n := by
  apply joined_ne_of_name_ne
  intro he
  rw [he, normalize_startsWith_ext n] at hsw
  exact Bool.noConfusion hsw

/-! ### Claim C3 -/

/-- Claim C3: in the straddling branch of `XSIAMReport.dump` the second file's
path is derived textually, not via the canonical normalization: a primary
whose name carries the `external-` token gets its copy at the full path string
with the `external-` substring removed (Python `str.replace`), otherwise the
copy goes to the primary's parent directory joined with
`normalize_file_name()`; in both cases the copy carries the primary's current
bytes, the primary file stays in place, and the returned list is not
extended. -/
theorem c3_straddling_textual_substitution
    (n : XSIAMReportNode) (destDir : String) (fs0 : FS String)
    (hm : modernOnlyBucket n.effFromVersion n.effToVersion = false)
    (hl : SemVer.lt n.effToVersion xsiamCutover = false)
    (hslash : '/' ∉ n.dumpedName.data)
    (himg : ∀ img, XSIAMReport.image_path n = some img → img ≠ n.dumpedName) :
    (∀ rest : String, n.dumpedName = "external-" ++ rest →
      fsRead (XSIAMReport.dump n destDir fs0).fs
          (pyReplaceDel (destDir ++ "/" ++ n.dumpedName) "external-") = some n.content
        ∧ fsRead (XSIAMReport.dump n destDir fs0).fs
          (destDir ++ "/" ++ n.dumpedName) = some n.content)
    ∧ (pyStartsWith n.dumpedName "external-" = false →
      fsRead (XSIAMReport.dump n destDir fs0).fs
          (destDir ++ "/" ++ XSIAMReport.normalize_file_name n) = some n.content
        ∧ fsRead (XSIAMReport.dump n destDir fs0).fs
          (destDir ++ "/" ++ n.dumpedName) = some n.content)
    ∧ (XSIAMReport.dump n destDir fs0).files
        = [destDir ++ "/" ++ n.dumpedName]
          ++ ((XSIAMReport.image_path n).map (fun i => destDir ++ "/" ++ i)).toList := by
  have hname : pathNameStr (destDir ++ "/" ++ n.dumpedName) = n.dumpedName :=
    pathNameStr_joined destDir n.dumpedName hslash
  have hparent : pathParentStr (destDir ++ "/" ++ n.dumpedName) = destDir :=
    pathParentStr_joined destDir n.dumpedName hslash
  cases himgc : XSIAMReport.image_path n with
  | none =>
    have hdump : XSIAMReport.dump n destDir fs0 =
        { files := [destDir ++ "/" ++ n.dumpedName],
          fs := fsCopyfile (fsWrite fs0 (destDir ++ "/" ++ n.dumpedName) n.content)
            (destDir ++ "/" ++ n.dumpedName)
            (if pyStartsWith n.dumpedName "external-" then
              pyReplaceDel (destDir ++ "/" ++ n.dumpedName) "external-"
            else destDir ++ "/" ++ XSIAMReport.normalize_file_name n) } := by
      unfold XSIAMReport.dump
      simp only [himgc, List.headD_cons, hm, Bool.false_eq_true, if_false, hl, hname, hparent]
    have hr2 : fsRead (fsWrite fs0 (destDir ++ "/" ++ n.dumpedName) n.content)
        (destDir ++ "/" ++ n.dumpedName) = some n.content := fsRead_fsWrite_self _ _ _
    refine ⟨?_, ?_, ?_⟩
    · intro rest hrest
      have hsw : pyStartsWith n.dumpedName "external-" = true := by
        rw [hrest]
        exact pyStartsWith_append_self _ _
      rw [hdump]
      simp only [hsw, if_true]
      have hne : destDir ++ "/" ++ n.dumpedName
          ≠ pyReplaceDel (destDir ++ "/" ++ n.dumpedName) "external-" := by
        rw [hrest]
        exact primary_ne_strip destDir rest
      have := fsCopyfile_reads hr2 hne
      exact ⟨this.1, this.2⟩
    · intro hsw
      rw [hdump]
      simp only [hsw, Bool.false_eq_true, if_false]
      have hne := primary_ne_norm n destDir hsw
      have := fsCopyfile_reads hr2 hne
      exact ⟨this.1, this.2⟩
    · rw [hdump]
      simp
  | some img =>
    have himgne : destDir ++ "/" ++ img ≠ destDir ++ "/" ++ n.dumpedName :=
      joined_ne_of_name_ne (himg img himgc)
    have hdump : XSIAMReport.dump n destDir fs0 =
        { files := [destDir ++ "/" ++ n.dumpedName, destDir ++ "/" ++ img],
          fs := fsCopyfile
            (fsWrite (fsWrite fs0 (destDir ++ "/" ++ n.dumpedName) n.content)
              (destDir ++ "/" ++ img) n.imageContent)
            (destDir ++ "/" ++ n.dumpedName)
            (if pyStartsWith n.dumpedName "external-" then
              pyReplaceDel (destDir ++ "/" ++ n.dumpedName) "external-"
            else destDir ++ "/" ++ XSIAMReport.normalize_file_name n) } := by
      unfold XSIAMReport.dump
      simp only [himgc, List.singleton_append, List.headD_cons, hm, Bool.false_eq_true,
        if_false, hl, hname, hparent]
    have hr2 : fsRead
        (fsWrite (fsWrite fs0 (destDir ++ "/" ++ n.dumpedName) n.content)
          (destDir ++ "/" ++ img) n.imageContent)
        (destDir ++ "/" ++ n.dumpedName) = some n.content := by
      rw [fsRead_fsWrite_ne _ _ _ _ (fun hh => himgne hh.symm)]
      exact fsRead_fsWrite_self _ _ _
    refine ⟨?_, ?_, ?_⟩
    · intro rest hrest
      have hsw : pyStartsWith n.dumpedName "external-" = true := by
        rw [hrest]
        exact pyStartsWith_append_self _ _
      rw [hdump]
      simp only [hsw, if_true]
      have hne : destDir ++ "/" ++ n.dumpedName
          ≠ pyReplaceDel (destDir ++ "/" ++ n.dumpedName) "external-" := by
        rw [hrest]
        exact primary_ne_strip destDir rest
      have := fsCopyfile_reads hr2 hne
      exact ⟨this.1, this.2⟩
    · intro hsw
      rw [hdump]
      simp only [hsw, Bool.false_eq_true, if_false]
      have hne := primary_ne_norm n destDir hsw
      have := fsCopyfile_reads hr2 hne
      exact ⟨this.1, this.2⟩
    · rw [hdump]
      simp

/-- Witness for C3 at a concrete straddling node with a marked primary name:
the copy lands at the substring-substituted path with the primary's bytes, and
the primary stays in place. -/
theorem c3_straddling_textual_substitution_witness :
    fsRead (XSIAMReport.dump xsrNodeStraddle "dest" []).fs "dest/report-foo.json"
        = some "BODY"
    ∧ fsRead (XSIAMReport.dump xsrNodeStraddle "dest" []).fs "dest/external-report-foo.json"
        = some "BODY" := by
  have h := (c3_straddling_textual_substitution xsrNodeStraddle "dest" []
    (by decide) (by decide) (by decide)
    (fun img hi => Option.noConfusion hi)).1 "report-foo.json" rfl
  exact ⟨h.1, h.2⟩

/-! ### Claim C1 -/

/-- Claim C1 counterexample: a straddling node with no side asset for which
`XSIAMReport.dump` returns one path, not the claimed two (the straddling
branch copies the second file to disk but never appends it to
`created_files`). -/
theorem c1_export_completeness_counterexample :
    straddlingBucket xsrNodeStraddle.effFromVersion xsrNodeStraddle.effToVersion = true
    ∧ XSIAMReport.image_path xsrNodeStraddle = none
    ∧ (XSIAMReport.dump xsrNodeStraddle "dest" []).files.length = 1
    ∧ (XSIAMReport.dump xsrNodeStraddle "dest" []).files.length ≠ 2 := by
  refine ⟨by decide, rfl, ?_, ?_⟩ <;> decide

/-- Claim C1 as amended: for a straddling node with no side asset (and a
primary name that is the `external-` token ahead of a token-free remainder),
`dump` returns exactly ONE path — the primary artifact — while at return time
both that file and its token-stripped twin exist on disk with the same bytes,
their names differing exactly by the `external-` token. -/
theorem c1_export_completeness_amended
    (n : XSIAMReportNode) (destDir rest : String) (fs0 : FS String)
    (hm : modernOnlyBucket n.effFromVersion n.effToVersion = false)
    (hl : SemVer.lt n.effToVersion xsiamCutover = false)
    (himgc : XSIAMReport.image_path n = none)
    (hrest : n.dumpedName = "external-" ++ rest)
    (hnomatch : hasMatch ("external-" : String).data rest.data = false)
    (hslash : '/' ∉ n.dumpedName.data) :
    (XSIAMReport.dump n destDir fs0).files = [destDir ++ "/" ++ n.dumpedName]
    ∧ fsRead (XSIAMReport.dump n destDir fs0).fs (destDir ++ "/" ++ n.dumpedName)
        = some n.content
    ∧ fsRead (XSIAMReport.dump n destDir fs0).fs
        (pyReplaceDel (destDir ++ "/" ++ n.dumpedName) "external-") = some n.content
    ∧ pathNameStr (destDir ++ "/" ++ n.dumpedName) = "external-" ++ rest
    ∧ pathNameStr (pyReplaceDel (destDir ++ "/" ++ n.dumpedName) "external-") = rest := by
  have hname : pathNameStr (destDir ++ "/" ++ n.dumpedName) = n.dumpedName :=
    pathNameStr_joined destDir n.dumpedName hslash
  have hparent : pathParentStr (destDir ++ "/" ++ n.dumpedName) = destDir :=
    pathParentStr_joined destDir n.dumpedName hslash
  have hsw : pyStartsWith n.dumpedName "external-" = true := by
    rw [hrest]
    exact pyStartsWith_append_self _ _
  have hdump : XSIAMReport.dump n destDir fs0 =
      { files := [destDir ++ "/" ++ n.dumpedName],
        fs := fsCopyfile (fsWrite fs0 (destDir ++ "/" ++ n.dumpedName) n.content)
          (destDir ++ "/" ++ n.dumpedName)
          (pyReplaceDel (destDir ++ "/" ++ n.dumpedName) "external-") } := by
    unfold XSIAMReport.dump
    simp only [himgc, List.headD_cons, hm, Bool.false_eq_true, if_false, hl, hname, hparent,
      hsw, if_true]
  have hr2 : fsRead (fsWrite fs0 (destDir ++ "/" ++ n.dumpedName) n.content)
      (destDir ++ "/" ++ n.dumpedName) = some n.content := fsRead_fsWrite_self _ _ _
  have hne : destDir ++ "/" ++ n.dumpedName
      ≠ pyReplaceDel (destDir ++ "/" ++ n.dumpedName) "external-" := by
    rw [hrest]
    exact primary_ne_strip destDir rest
  have hreads := fsCopyfile_reads hr2 hne
  have hslashr : '/' ∉ rest.data := by
    intro hmem
    apply hslash
    rw [hrest, strData_append]
    exact List.mem_append.mpr (Or.inr hmem)
  have hstrip : pyReplaceDel (destDir ++ "/" ++ n.dumpedName) "external-"
      = String.mk (stripAll ("external-" : String).data destDir.data) ++ "/" ++ rest := by
    rw [hrest]
    exact pyReplaceDel_joined_of_no_match destDir rest hnomatch
  refine ⟨?_, ?_, ?_, ?_, ?_⟩
  · rw [hdump]
  · rw [hdump]
    exact hreads.2
  · rw [hdump]
    exact hreads.1
  · rw [hname, hrest]
  · rw [hstrip]
    exact pathNameStr_joined _ rest hslashr

/-- Witness for the amended C1 at a concrete straddling node. -/
theorem c1_export_completeness_amended_witness :
    (XSIAMReport.dump xsrNodeStraddle "dest" []).files = ["dest/external-report-foo.json"]
    ∧ fsRead (XSIAMReport.dump xsrNodeStraddle "dest" []).fs "dest/external-report-foo.json"
        = some "BODY"
    ∧ fsRead (XSIAMReport.dump xsrNodeStraddle "dest" []).fs "dest/report-foo.json"
        = some "BODY" := by
  have h := c1_export_completeness_amended xsrNodeStraddle "dest" "report-foo.json" []
    (by decide) (by decide) rfl rfl (by decide) (by decide)
  exact ⟨h.1, h.2.1, h.2.2.1⟩

/-! ### Claim C4 -/

/-- Claim C4: with `fromVersion = 6.10.0, toVersion = 99.99.99` and no side
asset, `dump` returns exactly one path whose file name carries the
`external-` token; with `fromVersion = 0.0.0, toVersion = 6.9.0` it returns
exactly one path whose file name does not carry the token; in both cases a
rename, when one happens, is a move that removes the old name from disk.
(The legacy part assumes the remainder of a marked primary name is itself
token-free, which rules out Python-`replace` re-creating the token.) -/
theorem c4_nonstraddling_single_export :
    (∀ (n : XSIAMReportNode) (destDir : String) (fs0 : FS String),
      n.fromVersion = some ⟨6, 10, 0⟩ → n.toVersion = some ⟨99, 99, 99⟩ →
      XSIAMReport.image_path n = none →
      '/' ∉ n.dumpedName.data → '/' ∉ n.srcName.data →
      ∃ p : String,
        (XSIAMReport.dump n destDir fs0).files = [p]
        ∧ pyStartsWith (pathNameStr p) "external-" = true
        ∧ fsRead (XSIAMReport.dump n destDir fs0).fs p = some n.content
        ∧ (p ≠ destDir ++ "/" ++ n.dumpedName →
            fsRead (XSIAMReport.dump n destDir fs0).fs (destDir ++ "/" ++ n.dumpedName) = none))
    ∧ (∀ (n : XSIAMReportNode) (destDir : String) (fs0 : FS String),
      n.fromVersion = some ⟨0, 0, 0⟩ → n.toVersion = some ⟨6, 9, 0⟩ →
      XSIAMReport.image_path n = none →
      '/' ∉ n.dumpedName.data →
      hasMatch ("external-" : String).data (n.dumpedName.data.drop 9) = false →
      ∃ p : String,
        (XSIAMReport.dump n destDir fs0).files = [p]
        ∧ pyStartsWith (pathNameStr p) "external-" = false
        ∧ fsRead (XSIAMReport.dump n destDir fs0).fs p = some n.content
        ∧ (p ≠ destDir ++ "/" ++ n.dumpedName →
            fsRead (XSIAMReport.dump n destDir fs0).fs (destDir ++ "/" ++ n.dumpedName) = none)) := by
  constructor
  · intro n destDir fs0 hfrom hto himgc hslash hslash2
    have hm : modernOnlyBucket n.effFromVersion n.effToVersion = true := by
      unfold modernOnlyBucket XSIAMReportNode.effFromVersion
      rw [hfrom]
      rfl
    have hname : pathNameStr (destDir ++ "/" ++ n.dumpedName) = n.dumpedName :=
      pathNameStr_joined destDir n.dumpedName hslash
    have hparent : pathParentStr (destDir ++ "/" ++ n.dumpedName) = destDir :=
      pathParentStr_joined destDir n.dumpedName hslash
    cases hsw : pyStartsWith n.dumpedName "external-" with
    | true =>
      have hdump : XSIAMReport.dump n destDir fs0 =
          { files := [destDir ++ "/" ++ n.dumpedName],
            fs := fsWrite fs0 (destDir ++ "/" ++ n.dumpedName) n.content } := by
        unfold XSIAMReport.dump
        simp only [himgc, List.headD_cons, hm, if_true, hname, hsw, Bool.not_true,
          Bool.false_eq_true, if_false]
      refine ⟨destDir ++ "/" ++ n.dumpedName, ?_, ?_, ?_, ?_⟩
      · rw [hdump]
      · rw [hname, hsw]
      · rw [hdump]
        exact fsRead_fsWrite_self _ _ _
      · intro hp
        exact absurd rfl hp
    | false =>
      have hdump : XSIAMReport.dump n destDir fs0 =
          { files := [destDir ++ "/" ++ XSIAMReport.normalize_file_name n],
            fs := fsMove (fsWrite fs0 (destDir ++ "/" ++ n.dumpedName) n.content)
              (destDir ++ "/" ++ n.dumpedName)
              (destDir ++ "/" ++ XSIAMReport.normalize_file_name n) } := by
        unfold XSIAMReport.dump
        simp only [himgc, List.headD_cons, hm, if_true, hname, hparent, hsw, Bool.not_false,
          List.erase_cons_head, List.nil_append]
      have hne := primary_ne_norm n destDir hsw
      have hmove := fsMove_spec (fsWrite fs0 (destDir ++ "/" ++ n.dumpedName) n.content)
        (destDir ++ "/" ++ n.dumpedName) (destDir ++ "/" ++ XSIAMReport.normalize_file_name n)
        n.content (fsRead_fsWrite_self _ _ _) hne
      refine ⟨destDir ++ "/" ++ XSIAMReport.normalize_file_name n, ?_, ?_, ?_, ?_⟩
      · rw [hdump]
      · rw [pathNameStr_joined destDir _ (normalize_no_slash n hslash2)]
        exact normalize_startsWith_ext n
      · rw [hdump]
        exact hmove.1
      · intro _
        rw [hdump]
        exact hmove.2
  · intro n destDir fs0 hfrom hto himgc hslash htame
    have hm : modernOnlyBucket n.effFromVersion n.effToVersion = false := by
      unfold modernOnlyBucket XSIAMReportNode.effFromVersion
      rw [hfrom]
      rfl
    have hl : SemVer.lt n.effToVersion xsiamCutover = true := by
      unfold XSIAMReportNode.effToVersion
      rw [hto]
      rfl
    have hname : pathNameStr (destDir ++ "/" ++ n.dumpedName) = n.dumpedName :=
      pathNameStr_joined destDir n.dumpedName hslash
    cases hsw : pyStartsWith n.dumpedName "external-" with
    | false =>
      have hdump : XSIAMReport.dump n destDir fs0 =
          { files := [destDir ++ "/" ++ n.dumpedName],
            fs := fsWrite fs0 (destDir ++ "/" ++ n.dumpedName) n.content } := by
        unfold XSIAMReport.dump
        simp only [himgc, List.headD_cons, hm, Bool.false_eq_true, if_false, hl, if_true,
          hname, hsw]
      refine ⟨destDir ++ "/" ++ n.dumpedName, ?_, ?_, ?_, ?_⟩
      · rw [hdump]
      · rw [hname, hsw]
      · rw [hdump]
        exact fsRead_fsWrite_self _ _ _
      · intro hp
        exact absurd rfl hp
    | true =>
      obtain ⟨rest, hrest⟩ := (pyStartsWith_iff_exists n.dumpedName "external-").mp hsw
      have hdrop : n.dumpedName.data.drop 9 = rest.data := by
        rw [hrest, strData_append,
          show (9 : Nat) = ("external-" : String).data.length from rfl, List.drop_left]
      rw [hdrop] at htame
      have hslashr : '/' ∉ rest.data := by
        intro hmem
        apply hslash
        rw [hrest, strData_append]
        exact List.mem_append.mpr (Or.inr hmem)
      have hdump : XSIAMReport.dump n destDir fs0 =
          { files := [pyReplaceDel (destDir ++ "/" ++ n.dumpedName) "external-"],
            fs := fsMove (fsWrite fs0 (destDir ++ "/" ++ n.dumpedName) n.content)
              (destDir ++ "/" ++ n.dumpedName)
              (pyReplaceDel (destDir ++ "/" ++ n.dumpedName) "external-") } := by
        unfold XSIAMReport.dump
        simp only [himgc, List.headD_cons, hm, Bool.false_eq_true, if_false, hl, if_true,
          hname, hsw, List.erase_cons_head, List.nil_append]
      have hne : destDir ++ "/" ++ n.dumpedName
          ≠ pyReplaceDel (destDir ++ "/" ++ n.dumpedName) "external-" := by
        rw [hrest]
        exact primary_ne_strip destDir rest
      have hmove := fsMove_spec (fsWrite fs0 (destDir ++ "/" ++ n.dumpedName) n.content)
        (destDir ++ "/" ++ n.dumpedName)
        (pyReplaceDel (destDir ++ "/" ++ n.dumpedName) "external-")
        n.content (fsRead_fsWrite_self _ _ _) hne
      have hstrip : pyReplaceDel (destDir ++ "/" ++ n.dumpedName) "external-"
          = String.mk (stripAll ("external-" : String).data destDir.data) ++ "/" ++ rest := by
        rw [hrest]
        exact pyReplaceDel_joined_of_no_match destDir rest htame
      refine ⟨pyReplaceDel (destDir ++ "/" ++ n.dumpedName) "external-", ?_, ?_, ?_, ?_⟩
      · rw [hdump]
      · rw [hstrip, pathNameStr_joined _ rest hslashr]
        exact pyStartsWith_false_of_no_match htame extTok_data_ne_nil
      · rw [hdump]
        exact hmove.1
      · intro _
        rw [hdump]
        exact hmove.2

/-- Witness for C4: the concrete modern-range node is exported once under the
token-carrying name, the concrete legacy-range node once under the stripped
name. -/
theorem c4_nonstraddling_single_export_witness :
    (∃ p : String,
      (XSIAMReport.dump xsrNodeModern "dest" []).files = [p]
      ∧ pyStartsWith (pathNameStr p) "external-" = true
      ∧ fsRead (XSIAMReport.dump xsrNodeModern "dest" []).fs p = some "BODY"
      ∧ (p ≠ "dest" ++ "/" ++ xsrNodeModern.dumpedName →
          fsRead (XSIAMReport.dump xsrNodeModern "dest" []).fs
            ("dest" ++ "/" ++ xsrNodeModern.dumpedName) = none))
    ∧ (∃ p : String,
      (XSIAMReport.dump xsrNodeLegacy "dest" []).files = [p]
      ∧ pyStartsWith (pathNameStr p) "external-" = false
      ∧ fsRead (XSIAMReport.dump xsrNodeLegacy "dest" []).fs p = some "BODY"
      ∧ (p ≠ "dest" ++ "/" ++ xsrNodeLegacy.dumpedName →
          fsRead (XSIAMReport.dump xsrNodeLegacy "dest" []).fs
            ("dest" ++ "/" ++ xsrNodeLegacy.dumpedName) = none)) :=
  ⟨(c4_nonstraddling_single_export).1 xsrNodeModern "dest" [] rfl rfl rfl
      (by decide) (by decide),
   (c4_nonstraddling_single_export).2 xsrNodeLegacy "dest" [] rfl rfl rfl
      (by decide) (by decide)⟩

theorem fsRead_fsMove_other {α : Type} (fs : FS α) (src dst q : String)
    (h1 : q ≠ src) (h2 : q ≠ dst) :
    fsRead (fsMove fs src dst) q = fsRead fs q := by
  unfold fsMove
  cases hr : fsRead fs src with
  | none => rfl
  | some c =>
    rw [fsRead_fsWrite_ne _ _ _ _ h2, fsRead_fsErase_ne _ _ _ h1]

theorem fsRead_fsCopyfile_other {α : Type} (fs : FS α) (src dst q : String)
    (h2 : q ≠ dst) :
    fsRead (fsCopyfile fs src dst) q = fsRead fs q := by
  unfold fsCopyfile
  cases hr : fsRead fs src with
  | none => rfl
  | some c => rw [fsRead_fsWrite_ne _ _ _ _ h2]

/-! ### Claim C9 -/

/-- Claim C9: when the definition file `foo.json` has a sibling
`foo_image.png`, the result of `XSIAMReport.dump` contains the destination
path of that image (discovered by the stem + `_image.png` convention), the
image's bytes are written there and left untouched by every version-range
branch (the rename/copy applies to the primary artifact — element 0 of the
created list — only), and the result has exactly the two entries. -/
theorem c9_side_asset_attachment
    (n : XSIAMReportNode) (destDir : String) (fs0 : FS String)
    (hsib : XSIAMReport.imageName n ∈ n.srcSiblings)
    (himgne : XSIAMReport.imageName n ≠ n.dumpedName)
    (himgne2 : XSIAMReport.imageName n ≠ XSIAMReport.normalize_file_name n)
    (himgne3 : destDir ++ "/" ++ XSIAMReport.imageName n
        ≠ pyReplaceDel (destDir ++ "/" ++ n.dumpedName) "external-")
    (hslash : '/' ∉ n.dumpedName.data) :
    (destDir ++ "/" ++ XSIAMReport.imageName n) ∈ (XSIAMReport.dump n destDir fs0).files
    ∧ fsRead (XSIAMReport.dump n destDir fs0).fs (destDir ++ "/" ++ XSIAMReport.imageName n)
        = some n.imageContent
    ∧ (XSIAMReport.dump n destDir fs0).files.length = 2 := by
  have himgc : XSIAMReport.image_path n = some (XSIAMReport.imageName n) := by
    unfold XSIAMReport.image_path
    rw [if_pos hsib]
  have hname : pathNameStr (destDir ++ "/" ++ n.dumpedName) = n.dumpedName :=
    pathNameStr_joined destDir n.dumpedName hslash
  have hparent : pathParentStr (destDir ++ "/" ++ n.dumpedName) = destDir :=
    pathParentStr_joined destDir n.dumpedName hslash
  have hne1 : destDir ++ "/" ++ XSIAMReport.imageName n ≠ destDir ++ "/" ++ n.dumpedName :=
    joined_ne_of_name_ne himgne
  have hne2 : destDir ++ "/" ++ XSIAMReport.imageName n
      ≠ destDir ++ "/" ++ XSIAMReport.normalize_file_name n :=
    joined_ne_of_name_ne himgne2
  have hr2 : fsRead
      (fsWrite (fsWrite fs0 (destDir ++ "/" ++ n.dumpedName) n.content)
        (destDir ++ "/" ++ XSIAMReport.imageName n) n.imageContent)
      (destDir ++ "/" ++ XSIAMReport.imageName n) = some n.imageContent :=
    fsRead_fsWrite_self _ _ _
  unfold XSIAMReport.dump
  simp only [himgc, List.singleton_append, List.headD_cons, hname, hparent,
    List.erase_cons_head]
  split_ifs with h1 h2 h3 h4 h5
  · refine ⟨by simp, ?_, by simp⟩
    rw [fsRead_fsMove_other _ _ _ _ hne1 hne2]
    exact hr2
  · exact ⟨by simp, hr2, by simp⟩
  · refine ⟨by simp, ?_, by simp⟩
    rw [fsRead_fsMove_other _ _ _ _ hne1 himgne3]
    exact hr2
  · exact ⟨by simp, hr2, by simp⟩
  · refine ⟨by simp, ?_, by simp⟩
    rw [fsRead_fsCopyfile_other _ _ _ _ himgne3]
    exact hr2
  · refine ⟨by simp, ?_, by simp⟩
    rw [fsRead_fsCopyfile_other _ _ _ _ hne2]
    exact hr2

/-- Witness for C9 at a concrete node whose definition file has a sibling
image. -/
theorem c9_side_asset_attachment_witness :
    "dest/foo_image.png" ∈ (XSIAMReport.dump xsrNodeImage "dest" []).files
    ∧ fsRead (XSIAMReport.dump xsrNodeImage "dest" []).fs "dest/foo_image.png" = some "IMG"
    ∧ (XSIAMReport.dump xsrNodeImage "dest" []).files.length = 2 := by
  have h := c9_side_asset_attachment xsrNodeImage "dest" []
    (by decide) (by decide) (by decide) (by decide) (by decide)
  exact ⟨h.1, h.2.1, h.2.2⟩

/-! ### Helper lemmas: name normalization -/

theorem prefix_of_append_of_le {pat u v : List Char} (h : pat <+: u ++ v)
    (hle : pat.length ≤ u.length) : pat <+: u := by
  rw [List.prefix_iff_eq_take] at h ⊢
  rwa [List.take_append_eq_append_take, Nat.sub_eq_zero_of_le hle, List.take_zero,
    List.append_nil] at h

theorem append_prefix_rev {pat u v : List Char} (h : pat <+: u ++ v)
    (hle : u.length ≤ pat.length) : u <+: pat := by
  obtain ⟨t, ht⟩ := h
  have hu : u = (u ++ v).take u.length := by rw [List.take_left]
  rw [← ht, List.take_append_eq_append_take, Nat.sub_eq_zero_of_le hle, List.take_zero,
    List.append_nil] at hu
  rw [hu]
  exact List.take_prefix _ _

theorem hasMatch_append_false (pat w v : List Char)
    (hw : hasMatch pat w = false)
    (hsuf : ∀ i, i < w.length → (w.drop i).isPrefixOf pat = false)
    (hv : hasMatch pat v = false) :
    hasMatch pat (w ++ v) = false := by
  induction w with
  | nil => simpa using hv
  | cons c w' ih =>
    have hw' : pat.isPrefixOf (c :: w') = false ∧ hasMatch pat w' = false := by
      simpa [hasMatch] using hw
    have hpre : pat.isPrefixOf ((c :: w') ++ v) = false := by
      cases hp : pat.isPrefixOf ((c :: w') ++ v) with
      | false => rfl
      | true =>
        exfalso
        have hprefix : pat <+: (c :: w') ++ v := List.isPrefixOf_iff_prefix.mp hp
        by_cases hlen : pat.length ≤ (c :: w').length
        · have : pat <+: c :: w' := prefix_of_append_of_le hprefix hlen
          rw [List.isPrefixOf_iff_prefix.mpr this] at hw'
          exact Bool.noConfusion hw'.1
        · push_neg at hlen
          have : (c :: w') <+: pat := append_prefix_rev hprefix (Nat.le_of_lt hlen)
          have h0 := hsuf 0 (by simp)
          rw [List.drop_zero, List.isPrefixOf_iff_prefix.mpr this] at h0
          exact Bool.noConfusion h0
    have hsuf' : ∀ i, i < w'.length → (w'.drop i).isPrefixOf pat = false := by
      intro i hi
      have := hsuf (i + 1) (by simpa using Nat.succ_lt_succ hi)
      simpa using this
    have htail := ih hw'.2 hsuf'
    show (pat.isPrefixOf ((c :: w') ++ v) || hasMatch pat (w' ++ v)) = false
    rw [hpre, htail]
    rfl

theorem pyReplaceDel_of_no_match (s pat : String) (h : hasMatch pat.data s.data = false) :
    pyReplaceDel s pat = s := by
  unfold pyReplaceDel
  rw [stripAll_of_no_match h, strMk_data]

theorem pyReplaceDel_lead (S nm : String) (h : hasMatch (S ++ "-").data nm.data = false) :
    pyReplaceDel (S ++ "-" ++ nm) (S ++ "-") = nm := by
  have hne : (S ++ "-" : String).data ≠ [] := by
    rw [strData_append]
    intro hh
    have := congrArg List.length hh
    simp at this
  unfold pyReplaceDel
  have hd : (S ++ "-" ++ nm).data = (S ++ "-").data ++ nm.data := strData_append (S ++ "-") nm
  rw [hd, stripAll_cons_of_lead _ _ hne, stripAll_of_no_match h, strMk_data]

theorem pyReplaceDel_passthrough (S nm pat : String)
    (hw : hasMatch pat.data (S ++ "-").data = false)
    (hsuf : ∀ i, i < (S ++ "-" : String).data.length →
      ((S ++ "-" : String).data.drop i).isPrefixOf pat.data = false)
    (hv : hasMatch pat.data nm.data = false) :
    pyReplaceDel (S ++ "-" ++ nm) pat = S ++ "-" ++ nm := by
  apply pyReplaceDel_of_no_match
  rw [strData_append]
  exact hasMatch_append_false pat.data (S ++ "-").data nm.data hw hsuf hv

/-! ### Claim C5 -/

/-- Claim C5 counterexample: normalization is not idempotent for every file
name.  Stripping `"automation-"` from `"automautomation-ation-x"` re-creates
the token (Python `str.replace` does not re-scan), so the first normalization
yields `"automation-automation-x"` while the second yields
`"automation-x"`. -/
theorem c5_normalize_idempotence_counterexample :
    ContentItem.normalize_name ContentType.script
        (ContentItem.normalize_name ContentType.script "automautomation-ation-x")
      ≠ ContentItem.normalize_name ContentType.script "automautomation-ation-x" := by
  decide

/-- Claim C5 as amended: normalization is idempotent on every file name whose
*stripped* form — the name after `normalize_name`'s own token-stripping pass —
is free of occurrences of any known server token followed by `'-'`.  This
covers names with or without an existing well-formed type-token marker
(e.g. `"automation-foo.yml"` as well as `"foo.yml"`); it excludes exactly the
names on which `str.replace` re-creates a token while stripping, as in the
counterexample. -/
theorem c5_normalize_idempotence_amended (ct : ContentType) (name : String)
    (hfree : ∀ p ∈ ContentType.server_names,
      hasMatch (p ++ "-").data
        (ContentType.server_names.foldl (fun nm q => pyReplaceDel nm (q ++ "-")) name).data
        = false) :
    ContentItem.normalize_name ct (ContentItem.normalize_name ct name)
      = ContentItem.normalize_name ct name := by
  obtain ⟨r, hr⟩ : ∃ r : String,
      ContentType.server_names.foldl (fun nm q => pyReplaceDel nm (q ++ "-")) name = r :=
    ⟨_, rfl⟩
  have h1 := hfree "automation" (by simp [ContentType.server_names])
  have h2 := hfree "playbook" (by simp [ContentType.server_names])
  have h3 := hfree "report" (by simp [ContentType.server_names])
  rw [hr] at h1 h2 h3
  cases ct with
  | script =>
    show "automation" ++ "-" ++ ContentType.server_names.foldl
        (fun nm q => pyReplaceDel nm (q ++ "-"))
        ("automation" ++ "-" ++ ContentType.server_names.foldl
          (fun nm q => pyReplaceDel nm (q ++ "-")) name)
      = "automation" ++ "-" ++ ContentType.server_names.foldl
          (fun nm q => pyReplaceDel nm (q ++ "-")) name
    rw [hr]
    show "automation" ++ "-" ++ (pyReplaceDel (pyReplaceDel (pyReplaceDel
        ("automation" ++ "-" ++ r) ("automation" ++ "-")) ("playbook" ++ "-"))
        ("report" ++ "-"))
      = "automation" ++ "-" ++ r
    rw [pyReplaceDel_lead "automation" r h1, pyReplaceDel_of_no_match _ _ h2,
      pyReplaceDel_of_no_match _ _ h3]
  | playbook =>
    show "playbook" ++ "-" ++ ContentType.server_names.foldl
        (fun nm q => pyReplaceDel nm (q ++ "-"))
        ("playbook" ++ "-" ++ ContentType.server_names.foldl
          (fun nm q => pyReplaceDel nm (q ++ "-")) name)
      = "playbook" ++ "-" ++ ContentType.server_names.foldl
          (fun nm q => pyReplaceDel nm (q ++ "-")) name
    rw [hr]
    show "playbook" ++ "-" ++ (pyReplaceDel (pyReplaceDel (pyReplaceDel
        ("playbook" ++ "-" ++ r) ("automation" ++ "-")) ("playbook" ++ "-"))
        ("report" ++ "-"))
      = "playbook" ++ "-" ++ r
    rw [pyReplaceDel_passthrough "playbook" r ("automation" ++ "-")
        (by decide) (by decide) h1,
      pyReplaceDel_lead "playbook" r h2, pyReplaceDel_of_no_match _ _ h3]
  | xsiam_report =>
    show "report" ++ "-" ++ ContentType.server_names.foldl
        (fun nm q => pyReplaceDel nm (q ++ "-"))
        ("report" ++ "-" ++ ContentType.server_names.foldl
          (fun nm q => pyReplaceDel nm (q ++ "-")) name)
      = "report" ++ "-" ++ ContentType.server_names.foldl
          (fun nm q => pyReplaceDel nm (q ++ "-")) name
    rw [hr]
    show "report" ++ "-" ++ (pyReplaceDel (pyReplaceDel (pyReplaceDel
        ("report" ++ "-" ++ r) ("automation" ++ "-")) ("playbook" ++ "-"))
        ("report" ++ "-"))
      = "report" ++ "-" ++ r
    rw [pyReplaceDel_passthrough "report" r ("automation" ++ "-")
        (by decide) (by decide) h1,
      pyReplaceDel_passthrough "report" r ("playbook" ++ "-")
        (by decide) (by decide) h2,
      pyReplaceDel_lead "report" r h3]

/-- Witness for the amended C5 at a concrete name that already carries a
well-formed server-token marker. -/
theorem c5_normalize_idempotence_amended_witness :
    ContentItem.normalize_name ContentType.script
        (ContentItem.normalize_name ContentType.script "automation-foo.yml")
      = ContentItem.normalize_name ContentType.script "automation-foo.yml" :=
  c5_normalize_idempotence_amended ContentType.script "automation-foo.yml" (by decide)
